import Mathlib

/-!
Verification development for the corner-point geometry pipeline of the
image-distortion-correction frontend (`frontend/src/utils/api.js` and the
`ImageDistortionCorrector` component).

Coordinates are modelled over `ℚ` (exact rational arithmetic in place of
JavaScript floating point).  Each definition is a direct transcription of
the corresponding JavaScript function; stateful React `useState` updates are
modelled as explicit state-passing, and toast notifications as an explicit
list of emitted notifications.
-/

set_option maxRecDepth 8000

/-- Model of a 2-D point `{x, y}` with rational coordinates. -/
structure Point2D where
  x : ℚ
  y : ℚ
deriving DecidableEq

/-- Model of a width/height pair such as `canvasSize` and `imageSize`. -/
structure Dims where
  width : ℚ
  height : ℚ
deriving DecidableEq

/-- Model of a corner point as built by `handleCanvasClick`:
image-space coordinates `x`/`y`, the insertion-order `id`, and the
display-space shadow coordinates `displayX`/`displayY`. -/
structure CornerPoint where
  x : ℚ
  y : ℚ
  id : ℕ
  displayX : ℚ
  displayY : ℚ
deriving DecidableEq

/-- Model of `convertToImageCoordinates` (api.js lines 174-185): returns the
input unchanged when either canvas (display) dimension is 0, otherwise scales
by `imageSize / canvasSize` componentwise. -/
def convertToImageCoordinates (canvasSize imageSize : Dims) (p : Point2D) : Point2D :=
  if canvasSize.width = 0 ∨ canvasSize.height = 0 then p
  else
    { x := p.x * (imageSize.width / canvasSize.width),
      y := p.y * (imageSize.height / canvasSize.height) }

/-- Model of `convertToCanvasCoordinates` (api.js lines 187-198): returns the
input unchanged when either image dimension is 0, otherwise scales by
`canvasSize / imageSize` componentwise. -/
def convertToCanvasCoordinates (canvasSize imageSize : Dims) (p : Point2D) : Point2D :=
  if imageSize.width = 0 ∨ imageSize.height = 0 then p
  else
    { x := p.x * (canvasSize.width / imageSize.width),
      y := p.y * (canvasSize.height / imageSize.height) }

/-- Claim C2: with all four dimensions strictly positive, converting a display
point to image space and back to display space returns the original point
exactly (over exact rational arithmetic). -/
theorem coordinate_roundTrip (d i : Dims) (p : Point2D)
    (hdw : 0 < d.width) (hdh : 0 < d.height) (hiw : 0 < i.width) (hih : 0 < i.height) :
    convertToCanvasCoordinates d i (convertToImageCoordinates d i p) = p := by
  have hdw0 : d.width ≠ 0 := ne_of_gt hdw
  have hdh0 : d.height ≠ 0 := ne_of_gt hdh
  have hiw0 : i.width ≠ 0 := ne_of_gt hiw
  have hih0 : i.height ≠ 0 := ne_of_gt hih
  rw [convertToImageCoordinates, if_neg (by tauto), convertToCanvasCoordinates,
    if_neg (by tauto)]
  cases p with
  | mk px py =>
    simp only [Point2D.mk.injEq]
    constructor
    · field_simp
    · field_simp

/-- Witness for C2 at concrete sizes and point. -/
theorem coordinate_roundTrip_witness :
    convertToCanvasCoordinates ⟨2, 3⟩ ⟨5, 7⟩ (convertToImageCoordinates ⟨2, 3⟩ ⟨5, 7⟩ ⟨11, 13⟩)
      = ⟨11, 13⟩ :=
  coordinate_roundTrip ⟨2, 3⟩ ⟨5, 7⟩ ⟨11, 13⟩ (by norm_num) (by norm_num) (by norm_num)
    (by norm_num)

/-- Counterexample for claim C3 as stated: with display (canvas) size `(0, 9)`
and image size `(2, 2)`, `convertToCanvasCoordinates` does not return the input
unchanged even though a display dimension is 0 — its zero-guard tests the image
dimensions, not the display dimensions. -/
theorem zeroGuard_claim_false :
    convertToCanvasCoordinates ⟨0, 9⟩ ⟨2, 2⟩ ⟨1, 1⟩ ≠ (⟨1, 1⟩ : Point2D) := by
  rw [convertToCanvasCoordinates, if_neg (by norm_num)]
  simp only [Point2D.mk.injEq, ne_eq]
  norm_num

/-- Claim C3 (amended): `convertToImageCoordinates` returns the input unchanged
when either canvas (display) dimension is 0, and `convertToCanvasCoordinates`
returns the input unchanged when either image dimension is 0. -/
theorem zeroGuard_amended :
    (∀ (c i : Dims) (p : Point2D), c.width = 0 ∨ c.height = 0 →
      convertToImageCoordinates c i p = p) ∧
    (∀ (c i : Dims) (p : Point2D), i.width = 0 ∨ i.height = 0 →
      convertToCanvasCoordinates c i p = p) := by
  constructor
  · intro c i p h
    rw [convertToImageCoordinates, if_pos h]
  · intro c i p h
    rw [convertToCanvasCoordinates, if_pos h]

/-- Witness for the amended C3 at concrete inputs. -/
theorem zeroGuard_amended_witness :
    convertToImageCoordinates ⟨0, 5⟩ ⟨7, 9⟩ ⟨3, 4⟩ = (⟨3, 4⟩ : Point2D) ∧
    convertToCanvasCoordinates ⟨7, 9⟩ ⟨0, 5⟩ ⟨3, 4⟩ = (⟨3, 4⟩ : Point2D) :=
  ⟨zeroGuard_amended.1 ⟨0, 5⟩ ⟨7, 9⟩ ⟨3, 4⟩ (Or.inl rfl),
   zeroGuard_amended.2 ⟨7, 9⟩ ⟨0, 5⟩ ⟨3, 4⟩ (Or.inl rfl)⟩

/-- Model of an uploaded file: its MIME type string and byte size. -/
structure ImgFile where
  type : String
  size : ℕ
deriving DecidableEq

/-- Validation failure conditions of `validateImageFile`: `invalidFormat`
models the "Invalid file format" error and `fileTooLarge` the "File size too
large" error. -/
inductive ValidationError where
  | invalidFormat
  | fileTooLarge
deriving DecidableEq

/-- List of accepted MIME types (api.js line 70). -/
def validTypes : List String := ["image/jpeg", "image/jpg", "image/png"]

/-- Maximum accepted byte size (api.js line 71): `10 * 1024 * 1024`. -/
def maxSize : ℕ := 10 * 1024 * 1024

/-- Model of `validateImageFile` (api.js lines 69-82); a thrown error becomes
`Except.error`.  The identical function `validateImageFormat` appears verbatim
in the mock utilities file. -/
def validateImageFile (file : ImgFile) : Except ValidationError Bool :=
  if file.type ∉ validTypes then Except.error ValidationError.invalidFormat
  else if file.size > maxSize then Except.error ValidationError.fileTooLarge
  else Except.ok true

/-- Claim C6: `validateImageFile` rejects with the invalid-format error exactly
when the MIME type is not one of image/jpeg, image/jpg, image/png; for a valid
MIME type it rejects with the too-large error exactly when the size strictly
exceeds 10485760 bytes and otherwise returns `true`; in particular a 9 MiB
image/png passes, an image/gif is rejected, and an 11 MiB image/jpeg is
rejected. -/
theorem validateImageFile_spec :
    (∀ f : ImgFile,
      validateImageFile f = Except.error ValidationError.invalidFormat ↔ f.type ∉ validTypes) ∧
    (∀ f : ImgFile, f.type ∈ validTypes →
      (validateImageFile f = Except.error ValidationError.fileTooLarge ↔ 10485760 < f.size)) ∧
    (∀ f : ImgFile, f.type ∈ validTypes → f.size ≤ 10485760 →
      validateImageFile f = Except.ok true) ∧
    validateImageFile ⟨"image/png", 9437184⟩ = Except.ok true ∧
    validateImageFile ⟨"image/gif", 1024⟩ = Except.error ValidationError.invalidFormat ∧
    validateImageFile ⟨"image/jpeg", 11534336⟩ = Except.error ValidationError.fileTooLarge := by
  have hmax : maxSize = 10485760 := by norm_num [maxSize]
  refine ⟨?_, ?_, ?_, ?_, ?_, ?_⟩
  · intro f
    constructor
    · intro h hmem
      rw [validateImageFile, if_neg (by simpa using hmem)] at h
      by_cases hs : f.size > maxSize
      · rw [if_pos hs] at h
        exact absurd (Except.error.inj h) (by intro hc; cases hc)
      · rw [if_neg hs] at h
        cases h
    · intro hmem
      rw [validateImageFile, if_pos (by simpa using hmem)]
  · intro f hmem
    rw [validateImageFile, if_neg (by simpa using hmem), hmax]
    by_cases hs : f.size > 10485760
    · rw [if_pos hs]
      simpa using hs
    · rw [if_neg hs]
      constructor
      · intro h
        cases h
      · intro h
        exact absurd h hs
  · intro f hmem hsize
    rw [validateImageFile, if_neg (by simpa using hmem), if_neg (by omega)]
  · rw [validateImageFile, if_neg (by decide), if_neg (by norm_num [maxSize])]
  · rw [validateImageFile, if_pos (by decide)]
  · rw [validateImageFile, if_neg (by decide), if_pos (by norm_num [maxSize])]

/-- Witness for C6: a small valid JPEG file passes validation, via the third
conjunct of the specification theorem. -/
theorem validateImageFile_spec_witness :
    validateImageFile ⟨"image/jpeg", 2048⟩ = Except.ok true :=
  validateImageFile_spec.2.2.1 ⟨"image/jpeg", 2048⟩ (by decide) (by norm_num)

/-- Toast notifications emitted by the component, one constructor per distinct
`toast({...})` call site relevant to the modelled handlers. -/
inductive Toast where
  | uploadSuccess
  | uploadFailed
  | selectionComplete
  | incompleteSelection
  | processedSuccess
  | processingFailed
  | selectionReset
deriving DecidableEq

/-- Session state of the `ImageDistortionCorrector` component: the `useState`
fields that the modelled handlers read or write (the transient
`isUploading`/`isProcessing` spinner flags are set and cleared within a single
handler invocation and are omitted). -/
structure State where
  imageId : Option String
  originalImageUrl : Option String
  processedImageUrl : Option String
  cornerPoints : List CornerPoint
  draggedPoint : Option ℕ
  canvasSize : Dims
  imageSize : Dims
deriving DecidableEq

/-- Model of `handleCanvasClick` (component lines 200-227).  `click` is the
canvas-relative click position (`clientX - rect.left`, `clientY - rect.top`).
No-op when no image is loaded or when 4 or more points exist; otherwise
converts the click to image coordinates, appends a new point whose id is the
current count, and emits the "All corners selected!" toast exactly when the
previous count was 3. -/
def handleCanvasClick (s : State) (click : Point2D) : State × List Toast :=
  if s.originalImageUrl = none ∨ 4 ≤ s.cornerPoints.length then (s, [])
  else
    ({ s with cornerPoints := s.cornerPoints ++
        [{ x := (convertToImageCoordinates s.canvasSize s.imageSize click).x,
           y := (convertToImageCoordinates s.canvasSize s.imageSize click).y,
           id := s.cornerPoints.length,
           displayX := click.x, displayY := click.y }] },
     if s.cornerPoints.length = 3 then [Toast.selectionComplete] else [])

/-- Model of `handlePointDrag` (component lines 229-253): no-op unless the
recorded dragged-point id equals `pointId`; otherwise every stored point whose
id equals `pointId` gets its image-space coordinates recomputed from the new
display position and its display shadow updated, all other points unchanged. -/
def handlePointDrag (s : State) (pointId : ℕ) (pos : Point2D) : State :=
  if s.draggedPoint ≠ some pointId then s
  else
    { s with cornerPoints := s.cornerPoints.map (fun p =>
        if p.id = pointId then
          { p with x := (convertToImageCoordinates s.canvasSize s.imageSize pos).x,
                   y := (convertToImageCoordinates s.canvasSize s.imageSize pos).y,
                   displayX := pos.x, displayY := pos.y }
        else p) }

/-- Model of `resetSelection` (component lines 310-317): clears the corner
points and processed-image reference and emits the reset toast. -/
def resetSelection (s : State) : State × List Toast :=
  ({ s with cornerPoints := [], processedImageUrl := none }, [Toast.selectionReset])

/-- Response of the process-image endpoint (contracts.md §2). -/
structure ProcRes where
  processed_image_url : String
  processing_time : String
deriving DecidableEq

/-- Model of `processImageDistortion` (component lines 255-290).  `result`
stands for the outcome the asynchronous `processImage` call would have if it
were issued.  Returns the new state, the corner-point payload actually sent
(`none` when the request is never issued), and the emitted toasts. -/
def processImageDistortion (s : State) (result : Except String ProcRes) :
    State × Option (List Point2D) × List Toast :=
  if s.cornerPoints.length ≠ 4 then (s, none, [Toast.incompleteSelection])
  else
    match result with
    | Except.ok r =>
        ({ s with processedImageUrl := some r.processed_image_url },
         some (s.cornerPoints.map (fun p => { x := p.x, y := p.y })),
         [Toast.processedSuccess])
    | Except.error _ =>
        (s, some (s.cornerPoints.map (fun p => { x := p.x, y := p.y })),
         [Toast.processingFailed])

/-- Response of the upload endpoint (contracts.md §1). -/
structure UploadRes where
  image_id : String
deriving DecidableEq

/-- Model of `getImageUrl` (api.js lines 65-67), parameterised by the backend
base URL that the source reads from the environment. -/
def getImageUrl (backendUrl imageId ty : String) : String :=
  backendUrl ++ "/api" ++ "/images/" ++ imageId ++ "/" ++ ty

/-- Model of `handleImageUpload` (component lines 110-143).  `file` is the
selected file (`none` when the event carries no file) and `upload` the outcome
the asynchronous `uploadImage` call would have if it were issued.  Validation
failure or upload failure is caught and surfaced as a toast, leaving the state
untouched; on success the image id and original URL are replaced and the
corner points and processed image are cleared. -/
def handleImageUpload (backendUrl : String) (s : State) (file : Option ImgFile)
    (upload : Except String UploadRes) : State × List Toast :=
  match file with
  | none => (s, [])
  | some f =>
    match validateImageFile f with
    | Except.error _ => (s, [Toast.uploadFailed])
    | Except.ok _ =>
      match upload with
      | Except.error _ => (s, [Toast.uploadFailed])
      | Except.ok r =>
          ({ s with imageId := some r.image_id,
                    originalImageUrl := some (getImageUrl backendUrl r.image_id "original"),
                    cornerPoints := [],
                    processedImageUrl := none },
           [Toast.uploadSuccess])

/-- User gestures driving the corner-set state machine: canvas click
(`AddPoint`), drag move (`DragPoint`), the edge-triggering mouse-down/up that
record and clear the active dragged id, and `Reset`. -/
inductive Op where
  | addPoint (click : Point2D)
  | dragPoint (id : ℕ) (pos : Point2D)
  | beginDrag (id : ℕ)
  | endDrag
  | reset

/-- One transition of the corner-set state machine. -/
def stepOp (s : State) (op : Op) : State :=
  match op with
  | Op.addPoint click => (handleCanvasClick s click).1
  | Op.dragPoint id pos => handlePointDrag s id pos
  | Op.beginDrag id => { s with draggedPoint := some id }
  | Op.endDrag => { s with draggedPoint := none }
  | Op.reset => (resetSelection s).1

/-- Run of a sequence of gestures from a starting state. -/
def runOps (s : State) (ops : List Op) : State :=
  ops.foldl stepOp s

/-- Corner-set invariant: at most 4 points, and the ids listed in storage
order are exactly 0, 1, ..., count-1. -/
def CornerInv (s : State) : Prop :=
  s.cornerPoints.length ≤ 4 ∧
  s.cornerPoints.map (fun p => p.id) = List.range s.cornerPoints.length

theorem cornerInv_step (s : State) (op : Op) (h : CornerInv s) : CornerInv (stepOp s op) := by
  obtain ⟨hlen, hids⟩ := h
  cases op with
  | addPoint click =>
    show CornerInv (handleCanvasClick s click).1
    rw [handleCanvasClick]
    by_cases hg : s.originalImageUrl = none ∨ 4 ≤ s.cornerPoints.length
    · rw [if_pos hg]
      exact ⟨hlen, hids⟩
    · rw [if_neg hg]
      push_neg at hg
      constructor
      · simp only [List.length_append, List.length_cons, List.length_nil]
        omega
      · simp only [List.map_append, List.map_cons, List.map_nil, hids,
          List.length_append, List.length_cons, List.length_nil]
        rw [List.range_succ]
  | dragPoint id pos =>
    show CornerInv (handlePointDrag s id pos)
    rw [handlePointDrag]
    by_cases hg : s.draggedPoint ≠ some id
    · rw [if_pos hg]
      exact ⟨hlen, hids⟩
    · rw [if_neg hg]
      refine ⟨by simpa using hlen, ?_⟩
      have hmap : (s.cornerPoints.map (fun p =>
          if p.id = id then
            { p with x := (convertToImageCoordinates s.canvasSize s.imageSize pos).x,
                     y := (convertToImageCoordinates s.canvasSize s.imageSize pos).y,
                     displayX := pos.x, displayY := pos.y }
          else p)).map (fun p => p.id) = s.cornerPoints.map (fun p => p.id) := by
        rw [List.map_map]
        refine List.map_congr_left ?_
        intro p _
        by_cases hp : p.id = id
        · simp [hp]
        · simp [hp]
      simpa [hmap] using hids
  | beginDrag id => exact ⟨hlen, hids⟩
  | endDrag => exact ⟨hlen, hids⟩
  | reset => exact ⟨by simp [stepOp, resetSelection], by simp [stepOp, resetSelection]⟩

theorem cornerInv_run (s : State) (ops : List Op) (h : CornerInv s) : CornerInv (runOps s ops) := by
  induction ops generalizing s with
  | nil => exact h
  | cons op rest ih =>
    show CornerInv (runOps (stepOp s op) rest)
    exact ih (stepOp s op) (cornerInv_step s op h)

/-- Claim C1: starting from any state with an empty corner set, after any
sequence of clicks, drags, drag begin/end gestures, and resets, the corner
count is at most 4 and the stored ids are exactly 0, ..., count-1 in insertion
order. -/
theorem cornerSet_invariant (s : State) (ops : List Op) (h0 : s.cornerPoints = []) :
    (runOps s ops).cornerPoints.length ≤ 4 ∧
    (runOps s ops).cornerPoints.map (fun p => p.id) =
      List.range (runOps s ops).cornerPoints.length :=
  cornerInv_run s ops (by rw [CornerInv, h0]; exact ⟨by simp, by simp⟩)

/-- Witness for C1: a concrete run with five clicks, a drag and a reset from
the empty corner set. -/
theorem cornerSet_invariant_witness :
    (runOps ⟨none, some "u", none, [], none, ⟨4, 4⟩, ⟨8, 8⟩⟩
        [Op.addPoint ⟨1, 1⟩, Op.addPoint ⟨2, 1⟩, Op.beginDrag 0, Op.dragPoint 0 ⟨3, 3⟩,
         Op.endDrag, Op.addPoint ⟨2, 2⟩, Op.addPoint ⟨1, 2⟩, Op.addPoint ⟨0, 0⟩,
         Op.reset, Op.addPoint ⟨1, 1⟩]).cornerPoints.length ≤ 4 ∧
    (runOps ⟨none, some "u", none, [], none, ⟨4, 4⟩, ⟨8, 8⟩⟩
        [Op.addPoint ⟨1, 1⟩, Op.addPoint ⟨2, 1⟩, Op.beginDrag 0, Op.dragPoint 0 ⟨3, 3⟩,
         Op.endDrag, Op.addPoint ⟨2, 2⟩, Op.addPoint ⟨1, 2⟩, Op.addPoint ⟨0, 0⟩,
         Op.reset, Op.addPoint ⟨1, 1⟩]).cornerPoints.map (fun p => p.id) =
      List.range (runOps ⟨none, some "u", none, [], none, ⟨4, 4⟩, ⟨8, 8⟩⟩
        [Op.addPoint ⟨1, 1⟩, Op.addPoint ⟨2, 1⟩, Op.beginDrag 0, Op.dragPoint 0 ⟨3, 3⟩,
         Op.endDrag, Op.addPoint ⟨2, 2⟩, Op.addPoint ⟨1, 2⟩, Op.addPoint ⟨0, 0⟩,
         Op.reset, Op.addPoint ⟨1, 1⟩]).cornerPoints.length :=
  cornerSet_invariant ⟨none, some "u", none, [], none, ⟨4, 4⟩, ⟨8, 8⟩⟩
    [Op.addPoint ⟨1, 1⟩, Op.addPoint ⟨2, 1⟩, Op.beginDrag 0, Op.dragPoint 0 ⟨3, 3⟩,
     Op.endDrag, Op.addPoint ⟨2, 2⟩, Op.addPoint ⟨1, 2⟩, Op.addPoint ⟨0, 0⟩,
     Op.reset, Op.addPoint ⟨1, 1⟩] rfl

/-- Claim C7: a canvas click is a no-op (state unchanged, no toast) when 4
points already exist or when no image is loaded, and the "selection complete"
toast is emitted exactly on the click that produces the 4th point (image
loaded and previous count 3), in which case the new count is 4. -/
theorem addPoint_capacity_and_notify :
    (∀ (s : State) (click : Point2D), s.cornerPoints.length = 4 →
      handleCanvasClick s click = (s, [])) ∧
    (∀ (s : State) (click : Point2D), s.originalImageUrl = none →
      handleCanvasClick s click = (s, [])) ∧
    (∀ (s : State) (click : Point2D),
      (handleCanvasClick s click).2 = [Toast.selectionComplete] ↔
        (s.originalImageUrl ≠ none ∧ s.cornerPoints.length = 3)) ∧
    (∀ (s : State) (click : Point2D), s.originalImageUrl ≠ none →
      s.cornerPoints.length = 3 → (handleCanvasClick s click).1.cornerPoints.length = 4) := by
  refine ⟨?_, ?_, ?_, ?_⟩
  · intro s click h
    rw [handleCanvasClick, if_pos (Or.inr (by omega))]
  · intro s click h
    rw [handleCanvasClick, if_pos (Or.inl h)]
  · intro s click
    constructor
    · intro h
      by_cases hg : s.originalImageUrl = none ∨ 4 ≤ s.cornerPoints.length
      · rw [handleCanvasClick, if_pos hg] at h
        cases h
      · push_neg at hg
        rw [handleCanvasClick, if_neg (by push_neg; exact hg)] at h
        by_cases h3 : s.cornerPoints.length = 3
        · exact ⟨hg.1, h3⟩
        · rw [if_neg h3] at h
          cases h
    · intro h
      rw [handleCanvasClick, if_neg (by push_neg; exact ⟨h.1, by omega⟩), if_pos h.2]
  · intro s click h1 h3
    rw [handleCanvasClick, if_neg (by push_neg; exact ⟨h1, by omega⟩)]
    simp only [List.length_append, List.length_cons, List.length_nil, h3]

/-- Witness for C7 at concrete states: a click at capacity is dropped, a click
with no image is dropped, and a click on a 3-point selection completes it. -/
theorem addPoint_capacity_and_notify_witness :
    handleCanvasClick
        ⟨none, some "u", none,
         [⟨0, 0, 0, 0, 0⟩, ⟨1, 0, 1, 1, 0⟩, ⟨1, 1, 2, 1, 1⟩, ⟨0, 1, 3, 0, 1⟩],
         none, ⟨4, 4⟩, ⟨8, 8⟩⟩ ⟨2, 2⟩ =
      (⟨none, some "u", none,
        [⟨0, 0, 0, 0, 0⟩, ⟨1, 0, 1, 1, 0⟩, ⟨1, 1, 2, 1, 1⟩, ⟨0, 1, 3, 0, 1⟩],
        none, ⟨4, 4⟩, ⟨8, 8⟩⟩, []) ∧
    handleCanvasClick ⟨none, none, none, [], none, ⟨4, 4⟩, ⟨8, 8⟩⟩ ⟨2, 2⟩ =
      (⟨none, none, none, [], none, ⟨4, 4⟩, ⟨8, 8⟩⟩, []) ∧
    (handleCanvasClick
        ⟨none, some "u", none,
         [⟨0, 0, 0, 0, 0⟩, ⟨1, 0, 1, 1, 0⟩, ⟨1, 1, 2, 1, 1⟩],
         none, ⟨4, 4⟩, ⟨8, 8⟩⟩ ⟨2, 2⟩).2 = [Toast.selectionComplete] :=
  ⟨addPoint_capacity_and_notify.1 _ ⟨2, 2⟩ rfl,
   addPoint_capacity_and_notify.2.1 _ ⟨2, 2⟩ rfl,
   (addPoint_capacity_and_notify.2.2.1 _ ⟨2, 2⟩).mpr ⟨by simp, rfl⟩⟩

/-- Claim C9: `resetSelection` always yields an empty corner set and no
processed-image reference, and applying it twice from any state produces
exactly the same result as applying it once. -/
theorem reset_idempotent (s : State) :
    (resetSelection s).1.cornerPoints = [] ∧
    (resetSelection s).1.processedImageUrl = none ∧
    resetSelection (resetSelection s).1 = resetSelection s :=
  ⟨rfl, rfl, rfl⟩

/-- Claim C8: a drag event is a no-op on the whole state unless the recorded
dragged id matches; with a matching active drag, every stored point keeps its
id, points whose id differs from the dragged id are untouched, the point whose
id matches gets exactly its image-space coordinates and display shadow
replaced, and no other state field changes; if no stored point carries the
dragged id the corner set is unchanged. -/
theorem dragPoint_frame_effect :
    (∀ (s : State) (pid : ℕ) (pos : Point2D), s.draggedPoint ≠ some pid →
      handlePointDrag s pid pos = s) ∧
    (∀ (s : State) (pid : ℕ) (pos : Point2D), (∀ p ∈ s.cornerPoints, p.id ≠ pid) →
      handlePointDrag s pid pos = s) ∧
    (∀ (s : State) (pid : ℕ) (pos : Point2D),
      (handlePointDrag s pid pos).imageId = s.imageId ∧
      (handlePointDrag s pid pos).originalImageUrl = s.originalImageUrl ∧
      (handlePointDrag s pid pos).processedImageUrl = s.processedImageUrl ∧
      (handlePointDrag s pid pos).draggedPoint = s.draggedPoint ∧
      (handlePointDrag s pid pos).canvasSize = s.canvasSize ∧
      (handlePointDrag s pid pos).imageSize = s.imageSize) ∧
    (∀ (s : State) (pid : ℕ) (pos : Point2D), s.draggedPoint = some pid →
      ∀ (i : ℕ) (hi : i < s.cornerPoints.length),
        ∃ hi2 : i < (handlePointDrag s pid pos).cornerPoints.length,
          ((handlePointDrag s pid pos).cornerPoints.get ⟨i, hi2⟩).id =
            (s.cornerPoints.get ⟨i, hi⟩).id ∧
          ((s.cornerPoints.get ⟨i, hi⟩).id ≠ pid →
            (handlePointDrag s pid pos).cornerPoints.get ⟨i, hi2⟩ =
              s.cornerPoints.get ⟨i, hi⟩) ∧
          ((s.cornerPoints.get ⟨i, hi⟩).id = pid →
            (handlePointDrag s pid pos).cornerPoints.get ⟨i, hi2⟩ =
              { s.cornerPoints.get ⟨i, hi⟩ with
                  x := (convertToImageCoordinates s.canvasSize s.imageSize pos).x,
                  y := (convertToImageCoordinates s.canvasSize s.imageSize pos).y,
                  displayX := pos.x, displayY := pos.y })) := by
  refine ⟨?_, ?_, ?_, ?_⟩
  · intro s pid pos h
    rw [handlePointDrag, if_pos h]
  · intro s pid pos h
    by_cases hg : s.draggedPoint ≠ some pid
    · rw [handlePointDrag, if_pos hg]
    · rw [handlePointDrag, if_neg hg]
      have hmap : s.cornerPoints.map (fun p =>
          if p.id = pid then
            { p with x := (convertToImageCoordinates s.canvasSize s.imageSize pos).x,
                     y := (convertToImageCoordinates s.canvasSize s.imageSize pos).y,
                     displayX := pos.x, displayY := pos.y }
          else p) = s.cornerPoints := by
        have hcongr := List.map_congr_left (l := s.cornerPoints)
          (f := fun p =>
            if p.id = pid then
              { p with x := (convertToImageCoordinates s.canvasSize s.imageSize pos).x,
                       y := (convertToImageCoordinates s.canvasSize s.imageSize pos).y,
                       displayX := pos.x, displayY := pos.y }
            else p)
          (g := fun p => p) (fun p hp => if_neg (h p hp))
        rw [hcongr]
        exact List.map_id' s.cornerPoints
      rw [hmap]
  · intro s pid pos
    by_cases hg : s.draggedPoint ≠ some pid
    · rw [handlePointDrag, if_pos hg]
      exact ⟨rfl, rfl, rfl, rfl, rfl, rfl⟩
    · rw [handlePointDrag, if_neg hg]
      exact ⟨rfl, rfl, rfl, rfl, rfl, rfl⟩
  · intro s pid pos h i hi
    have hcp : (handlePointDrag s pid pos).cornerPoints = s.cornerPoints.map (fun p =>
        if p.id = pid then
          { p with x := (convertToImageCoordinates s.canvasSize s.imageSize pos).x,
                   y := (convertToImageCoordinates s.canvasSize s.imageSize pos).y,
                   displayX := pos.x, displayY := pos.y }
        else p) := by
      rw [handlePointDrag, if_neg (not_ne_iff.mpr h)]
    have hi2 : i < (handlePointDrag s pid pos).cornerPoints.length := by
      rw [hcp, List.length_map]
      exact hi
    refine ⟨hi2, ?_, ?_, ?_⟩
    · simp only [List.get_eq_getElem, hcp, List.getElem_map]
      by_cases hp : (s.cornerPoints.get ⟨i, hi⟩).id = pid
      · simp only [List.get_eq_getElem] at hp
        simp [hp]
      · simp only [List.get_eq_getElem] at hp
        simp [hp]
    · intro hp
      simp only [List.get_eq_getElem] at hp ⊢
      simp only [hcp, List.getElem_map]
      rw [if_neg hp]
    · intro hp
      simp only [List.get_eq_getElem] at hp ⊢
      simp only [hcp, List.getElem_map]
      rw [if_pos hp]

/-- Witness for C8: a drag with no drag in progress leaves a concrete state
unchanged, and a matching drag updates exactly the dragged point. -/
theorem dragPoint_frame_effect_witness :
    handlePointDrag ⟨none, some "u", none, [⟨1, 1, 0, 1, 1⟩], none, ⟨4, 4⟩, ⟨8, 8⟩⟩ 0 ⟨2, 2⟩ =
      ⟨none, some "u", none, [⟨1, 1, 0, 1, 1⟩], none, ⟨4, 4⟩, ⟨8, 8⟩⟩ ∧
    ∃ hi2 : 0 < (handlePointDrag
        ⟨none, some "u", none, [⟨1, 1, 0, 1, 1⟩, ⟨3, 3, 1, 3, 3⟩], some 1, ⟨4, 4⟩, ⟨8, 8⟩⟩
        1 ⟨2, 2⟩).cornerPoints.length,
      (handlePointDrag
        ⟨none, some "u", none, [⟨1, 1, 0, 1, 1⟩, ⟨3, 3, 1, 3, 3⟩], some 1, ⟨4, 4⟩, ⟨8, 8⟩⟩
        1 ⟨2, 2⟩).cornerPoints.get ⟨0, hi2⟩ =
        ((⟨none, some "u", none, [⟨1, 1, 0, 1, 1⟩, ⟨3, 3, 1, 3, 3⟩], some 1, ⟨4, 4⟩,
          ⟨8, 8⟩⟩ : State)).cornerPoints.get ⟨0, by norm_num⟩ :=
  ⟨dragPoint_frame_effect.1 _ 0 ⟨2, 2⟩ (by simp),
   ⟨(dragPoint_frame_effect.2.2.2 _ 1 ⟨2, 2⟩ rfl 0 (by norm_num)).1,
    ((dragPoint_frame_effect.2.2.2 _ 1 ⟨2, 2⟩ rfl 0 (by norm_num)).2).2.1 (by norm_num)⟩⟩

/-- Claim C5: requesting correction with a corner count other than 4 surfaces
the "Incomplete selection" validation toast, never issues the processing
request, and leaves the state (including the processed-image reference)
unchanged. -/
theorem incompleteSelection_guard (s : State) (result : Except String ProcRes)
    (h : s.cornerPoints.length ≠ 4) :
    processImageDistortion s result = (s, none, [Toast.incompleteSelection]) := by
  rw [processImageDistortion.eq_def, if_pos h]

/-- Witness for C5 at a concrete 2-point state. -/
theorem incompleteSelection_guard_witness :
    processImageDistortion
        ⟨some "i", some "u", some "p", [⟨1, 1, 0, 1, 1⟩, ⟨3, 3, 1, 3, 3⟩], none, ⟨4, 4⟩, ⟨8, 8⟩⟩
        (Except.ok ⟨"url", "2.3s"⟩) =
      (⟨some "i", some "u", some "p", [⟨1, 1, 0, 1, 1⟩, ⟨3, 3, 1, 3, 3⟩], none, ⟨4, 4⟩, ⟨8, 8⟩⟩,
       none, [Toast.incompleteSelection]) :=
  incompleteSelection_guard _ _ (by norm_num)

/-- Claim C10: an upload attempt that fails validation or whose request fails
leaves the image id, original URL, corner set and processed-image reference
untouched (only a failure toast is emitted); on success they are replaced and
the corner set and processed image are cleared. -/
theorem upload_atomicity :
    (∀ (burl : String) (s : State) (f : ImgFile) (up : Except String UploadRes)
        (e : ValidationError), validateImageFile f = Except.error e →
      handleImageUpload burl s (some f) up = (s, [Toast.uploadFailed])) ∧
    (∀ (burl : String) (s : State) (f : ImgFile) (msg : String),
        validateImageFile f = Except.ok true →
      handleImageUpload burl s (some f) (Except.error msg) = (s, [Toast.uploadFailed])) ∧
    (∀ (burl : String) (s : State) (f : ImgFile) (r : UploadRes),
        validateImageFile f = Except.ok true →
      handleImageUpload burl s (some f) (Except.ok r) =
        ({ s with imageId := some r.image_id,
                  originalImageUrl := some (getImageUrl burl r.image_id "original"),
                  cornerPoints := [],
                  processedImageUrl := none }, [Toast.uploadSuccess])) := by
  refine ⟨?_, ?_, ?_⟩
  · intro burl s f up e h
    simp [handleImageUpload, h]
  · intro burl s f msg h
    simp [handleImageUpload, h]
  · intro burl s f r h
    simp [handleImageUpload, h]

/-- Witness for C10: a gif upload attempt and a failed network upload leave a
concrete state unchanged, and a successful upload installs the new image. -/
theorem upload_atomicity_witness :
    handleImageUpload "b" ⟨some "i", some "u", some "p", [⟨1, 1, 0, 1, 1⟩], none, ⟨4, 4⟩, ⟨8, 8⟩⟩
        (some ⟨"image/gif", 10⟩) (Except.ok ⟨"new"⟩) =
      (⟨some "i", some "u", some "p", [⟨1, 1, 0, 1, 1⟩], none, ⟨4, 4⟩, ⟨8, 8⟩⟩,
       [Toast.uploadFailed]) ∧
    handleImageUpload "b" ⟨some "i", some "u", some "p", [⟨1, 1, 0, 1, 1⟩], none, ⟨4, 4⟩, ⟨8, 8⟩⟩
        (some ⟨"image/png", 10⟩) (Except.error "boom") =
      (⟨some "i", some "u", some "p", [⟨1, 1, 0, 1, 1⟩], none, ⟨4, 4⟩, ⟨8, 8⟩⟩,
       [Toast.uploadFailed]) ∧
    handleImageUpload "b" ⟨some "i", some "u", some "p", [⟨1, 1, 0, 1, 1⟩], none, ⟨4, 4⟩, ⟨8, 8⟩⟩
        (some ⟨"image/png", 10⟩) (Except.ok ⟨"new"⟩) =
      (⟨some "new", some (getImageUrl "b" "new" "original"), none, [], none, ⟨4, 4⟩, ⟨8, 8⟩⟩,
       [Toast.uploadSuccess]) :=
  ⟨upload_atomicity.1 "b" _ ⟨"image/gif", 10⟩ (Except.ok ⟨"new"⟩)
      ValidationError.invalidFormat rfl,
   upload_atomicity.2.1 "b" _ ⟨"image/png", 10⟩ "boom" rfl,
   upload_atomicity.2.2 "b" _ ⟨"image/png", 10⟩ ⟨"new"⟩ rfl⟩

/-- Dot product of a coefficient list with a solution list (excess entries of
either list are ignored). -/
def dotL : List ℚ → List ℚ → ℚ
  | a :: v, b :: w => a * b + dotL v w
  | _, _ => 0

/-- First equation of a system whose leading coefficient is nonzero, returned
as (leading coefficient, remaining coefficients, right-hand side). -/
def findPivotL : List (List ℚ × ℚ) → Option (ℚ × List ℚ × ℚ)
  | [] => none
  | (a :: v, b) :: rest => if a = 0 then findPivotL rest else some (a, v, b)
  | ([], _) :: rest => findPivotL rest

/-- Elimination of the leading variable from one equation using the pivot
equation `piv`. -/
def reduceRowL (piv : ℚ × List ℚ × ℚ) : List ℚ × ℚ → List ℚ × ℚ
  | (c :: v, b) =>
      (List.zipWith (fun x y => x - c / piv.1 * y) v piv.2.1, b - c / piv.1 * piv.2.2)
  | ([], b) => ([], b)

/-- Gaussian elimination with back substitution for a linear system in `n`
unknowns over `ℚ`; each equation is (coefficient list, right-hand side).
Returns `none` when no pivot is available or the eliminated system is
inconsistent. -/
def elimL : ℕ → List (List ℚ × ℚ) → Option (List ℚ)
  | 0, rows => if ∀ r ∈ rows, r.2 = 0 then some [] else none
  | n + 1, rows =>
    match findPivotL rows with
    | none => none
    | some piv =>
      match elimL n (rows.map (reduceRowL piv)) with
      | none => none
      | some xs => some ((piv.2.2 - dotL piv.2.1 xs) / piv.1 :: xs)

theorem findPivotL_spec (rows : List (List ℚ × ℚ)) :
    ∀ (a : ℚ) (v : List ℚ) (b : ℚ), findPivotL rows = some (a, v, b) →
      (a :: v, b) ∈ rows ∧ a ≠ 0 := by
  induction rows with
  | nil => intro a v b h; cases h
  | cons r rest ih =>
    intro a v b h
    obtain ⟨cs, rb⟩ := r
    cases cs with
    | nil =>
      rw [findPivotL] at h
      obtain ⟨hm, ha⟩ := ih a v b h
      exact ⟨List.mem_cons_of_mem _ hm, ha⟩
    | cons c cv =>
      rw [findPivotL] at h
      by_cases hc : c = 0
      · rw [if_pos hc] at h
        obtain ⟨hm, ha⟩ := ih a v b h
        exact ⟨List.mem_cons_of_mem _ hm, ha⟩
      · rw [if_neg hc] at h
        obtain ⟨rfl, rfl, rfl⟩ : c = a ∧ cv = v ∧ rb = b := by
          have := Option.some.inj h
          exact ⟨congrArg Prod.fst this, congrArg (fun q => q.2.1) this,
            congrArg (fun q => q.2.2) this⟩
        exact ⟨List.mem_cons_self _ _, hc⟩

theorem dotL_zipSub (v : List ℚ) :
    ∀ (w xs : List ℚ) (k : ℚ), v.length = w.length →
      dotL (List.zipWith (fun x y => x - k * y) v w) xs = dotL v xs - k * dotL w xs := by
  induction v with
  | nil =>
    intro w xs k hlen
    have hw : w = [] := by
      cases w with
      | nil => rfl
      | cons b w2 => cases hlen
    subst hw
    simp [dotL]
  | cons a v2 ihv =>
    intro w xs k hlen
    cases w with
    | nil => cases hlen
    | cons b w2 =>
      cases xs with
      | nil => simp [dotL]
      | cons x xs2 =>
        have hlen2 : v2.length = w2.length := by
          simpa using hlen
        simp only [List.zipWith_cons_cons, dotL, ihv w2 xs2 k hlen2]
        ring

theorem elimL_correct (n : ℕ) :
    ∀ (rows : List (List ℚ × ℚ)) (xs : List ℚ),
      (∀ r ∈ rows, r.1.length = n) → elimL n rows = some xs →
      ∀ r ∈ rows, dotL r.1 xs = r.2 := by
  induction n with
  | zero =>
    intro rows xs hlen h r hr
    by_cases hc : ∀ r ∈ rows, r.2 = 0
    · have h1 : r.1 = [] := List.length_eq_zero.mp (hlen r hr)
      rw [h1]
      rw [show dotL [] xs = 0 from rfl]
      exact (hc r hr).symm
    · rw [elimL, if_neg hc] at h
      cases h
  | succ n ih =>
    intro rows xs hlen h r hr
    rw [elimL] at h
    cases hfp : findPivotL rows with
    | none => rw [hfp] at h; cases h
    | some piv =>
      obtain ⟨a, pv, pb⟩ := piv
      rw [hfp] at h
      obtain ⟨hpm, ha⟩ := findPivotL_spec rows a pv pb hfp
      have hpv : pv.length = n := by
        have := hlen _ hpm
        simpa using this
      have hred : ∀ r2 ∈ rows.map (reduceRowL (a, pv, pb)), r2.1.length = n := by
        intro r2 hr2
        obtain ⟨r0, hr0, rfl⟩ := List.mem_map.mp hr2
        obtain ⟨r01, r02⟩ := r0
        cases r01 with
        | nil =>
          have := hlen _ hr0
          cases this
        | cons c v =>
          have hv : v.length = n := by
            have := hlen _ hr0
            simpa using this
          rw [reduceRowL]
          simp [List.length_zipWith, hv, hpv]
      have h2 : (match elimL n (rows.map (reduceRowL (a, pv, pb))) with
          | none => none
          | some xs2 => some ((pb - dotL pv xs2) / a :: xs2)) = some xs := h
      cases he : elimL n (rows.map (reduceRowL (a, pv, pb))) with
      | none => rw [he] at h2; cases h2
      | some xs2 =>
        rw [he] at h2
        have hxs : xs = (pb - dotL pv xs2) / a :: xs2 := (Option.some.inj h2).symm
        subst hxs
        have ihall := ih (rows.map (reduceRowL (a, pv, pb))) xs2 hred he
        obtain ⟨r1, r2⟩ := r
        cases r1 with
        | nil =>
          have := hlen _ hr
          cases this
        | cons c v =>
          have hv : v.length = n := by
            have := hlen _ hr
            simpa using this
          have hrr := ihall _ (List.mem_map_of_mem (reduceRowL (a, pv, pb)) hr)
          rw [reduceRowL] at hrr
          have hzip : dotL (List.zipWith (fun x y => x - c / a * y) v pv) xs2 =
              dotL v xs2 - c / a * dotL pv xs2 :=
            dotL_zipSub v pv xs2 (c / a) (hv.trans hpv.symm)
          rw [hzip] at hrr
          show c * ((pb - dotL pv xs2) / a) + dotL v xs2 = r2
      
          have hdv : dotL v xs2 = r2 - c / a * pb + c / a * dotL pv xs2 := by
            linarith
          rw [hdv]
          field_simp
          ring

/-- Homography equation contributed by correspondence `s ↦ d` for the
x-coordinate: with unknowns `(m0,...,m7)` and bottom-right entry fixed to 1,
`s.x*m0 + s.y*m1 + m2 - d.x*s.x*m6 - d.x*s.y*m7 = d.x`. -/
def corrRow1 (s d : Point2D) : List ℚ × ℚ :=
  ([s.x, s.y, 1, 0, 0, 0, -(d.x * s.x), -(d.x * s.y)], d.x)

/-- Homography equation contributed by correspondence `s ↦ d` for the
y-coordinate. -/
def corrRow2 (s d : Point2D) : List ℚ × ℚ :=
  ([0, 0, 0, s.x, s.y, 1, -(d.y * s.x), -(d.y * s.y)], d.y)

/-- Modelled from the spec: the 8-equation linear system of §4.3 step 1 for
the backend perspective transform, whose implementation
(`cv2.getPerspectiveTransform` per contracts.md) is not part of the given
source tree.  The source points contribute, in order, two equations each for
the destination corners `(0,0)`, `(W,0)`, `(W,H)`, `(0,H)`. -/
def homographyRows (p0 p1 p2 p3 : Point2D) (W H : ℚ) : List (List ℚ × ℚ) :=
  [corrRow1 p0 ⟨0, 0⟩, corrRow2 p0 ⟨0, 0⟩,
   corrRow1 p1 ⟨W, 0⟩, corrRow2 p1 ⟨W, 0⟩,
   corrRow1 p2 ⟨W, H⟩, corrRow2 p2 ⟨W, H⟩,
   corrRow1 p3 ⟨0, H⟩, corrRow2 p3 ⟨0, H⟩]

/-- A 3×3 matrix of rationals. -/
abbrev Mat3 : Type := Fin 3 → Fin 3 → ℚ

/-- Assembly of the solved 8-vector `(m0,...,m7)` into the homogeneous 3×3
matrix with bottom-right entry 1. -/
def matFromList : List ℚ → Option Mat3
  | [m0, m1, m2, m3, m4, m5, m6, m7] =>
      some ![![m0, m1, m2], ![m3, m4, m5], ![m6, m7, 1]]
  | _ => none

/-- Determinant of a 3×3 matrix, by cofactor expansion along the first row. -/
def det3 (M : Mat3) : ℚ :=
  M 0 0 * (M 1 1 * M 2 2 - M 1 2 * M 2 1) - M 0 1 * (M 1 0 * M 2 2 - M 1 2 * M 2 0)
    + M 0 2 * (M 1 0 * M 2 1 - M 1 1 * M 2 0)

/-- Application of a homogeneous 3×3 matrix to a point: dehomogenisation
fails (`none`) when the point maps to the line at infinity. -/
def applyHomography (M : Mat3) (p : Point2D) : Option Point2D :=
  if M 2 0 * p.x + M 2 1 * p.y + M 2 2 = 0 then none
  else
    some { x := (M 0 0 * p.x + M 0 1 * p.y + M 0 2) / (M 2 0 * p.x + M 2 1 * p.y + M 2 2),
           y := (M 1 0 * p.x + M 1 1 * p.y + M 1 2) / (M 2 0 * p.x + M 2 1 * p.y + M 2 2) }

/-- Modelled from the spec: the backend's `getPerspectiveTransform`
(contracts.md §OpenCV Implementation Details; the Python implementation is
not part of the given source tree).  Solves the 8×8 homography system of §4.3
normalised so the bottom-right entry is 1, and rejects (`none`, the
`UnsolvableTransform` condition of §4.3) when the system is unsolvable or the
resulting transform is singular (non-invertible). -/
def getPerspectiveTransform (p0 p1 p2 p3 : Point2D) (W H : ℚ) : Option Mat3 :=
  match elimL 8 (homographyRows p0 p1 p2 p3 W H) with
  | none => none
  | some xs =>
    match matFromList xs with
    | none => none
    | some M => if det3 M = 0 then none else some M

theorem homographyRows_length (p0 p1 p2 p3 : Point2D) (W H : ℚ) :
    ∀ r ∈ homographyRows p0 p1 p2 p3 W H, r.1.length = 8 := by
  intro r hr
  simp only [homographyRows, List.mem_cons, List.not_mem_nil, or_false] at hr
  rcases hr with rfl | rfl | rfl | rfl | rfl | rfl | rfl | rfl <;> rfl

theorem matFromList_eq_some (xs : List ℚ) (M : Mat3) (h : matFromList xs = some M) :
    ∃ m0 m1 m2 m3 m4 m5 m6 m7, xs = [m0, m1, m2, m3, m4, m5, m6, m7] ∧
      M = ![![m0, m1, m2], ![m3, m4, m5], ![m6, m7, 1]] := by
  rcases xs with _ | ⟨m0, _ | ⟨m1, _ | ⟨m2, _ | ⟨m3, _ | ⟨m4, _ | ⟨m5, _ | ⟨m6, _ |
    ⟨m7, _ | ⟨m8, rest⟩⟩⟩⟩⟩⟩⟩⟩⟩
  · exact Option.noConfusion (show (none : Option Mat3) = some M from h)
  · exact Option.noConfusion (show (none : Option Mat3) = some M from h)
  · exact Option.noConfusion (show (none : Option Mat3) = some M from h)
  · exact Option.noConfusion (show (none : Option Mat3) = some M from h)
  · exact Option.noConfusion (show (none : Option Mat3) = some M from h)
  · exact Option.noConfusion (show (none : Option Mat3) = some M from h)
  · exact Option.noConfusion (show (none : Option Mat3) = some M from h)
  · exact Option.noConfusion (show (none : Option Mat3) = some M from h)
  · exact ⟨m0, m1, m2, m3, m4, m5, m6, m7, rfl,
      (Option.some.inj (show some (![![m0, m1, m2], ![m3, m4, m5], ![m6, m7, 1]] : Mat3)
        = some M from h)).symm⟩
  · exact Option.noConfusion (show (none : Option Mat3) = some M from h)

theorem det3_eq_zero_of_kernel (M : Mat3) (x y : ℚ)
    (h1 : M 0 0 * x + M 0 1 * y + M 0 2 = 0)
    (h2 : M 1 0 * x + M 1 1 * y + M 1 2 = 0)
    (h3 : M 2 0 * x + M 2 1 * y + M 2 2 = 0) : det3 M = 0 := by
  rw [det3]
  linear_combination (M 1 0 * M 2 1 - M 1 1 * M 2 0) * h1 +
    (M 0 1 * M 2 0 - M 0 0 * M 2 1) * h2 + (M 0 0 * M 1 1 - M 0 1 * M 1 0) * h3

theorem applyHomography_of_rows (m0 m1 m2 m3 m4 m5 m6 m7 sx sy dx dy : ℚ)
    (hdet : det3 ![![m0, m1, m2], ![m3, m4, m5], ![m6, m7, 1]] ≠ 0)
    (e1 : sx * m0 + (sy * m1 + (1 * m2 + (0 * m3 + (0 * m4 + (0 * m5 +
        (-(dx * sx) * m6 + (-(dx * sy) * m7 + 0))))))) = dx)
    (e2 : 0 * m0 + (0 * m1 + (0 * m2 + (sx * m3 + (sy * m4 + (1 * m5 +
        (-(dy * sx) * m6 + (-(dy * sy) * m7 + 0))))))) = dy) :
    applyHomography ![![m0, m1, m2], ![m3, m4, m5], ![m6, m7, 1]] ⟨sx, sy⟩ =
      some ⟨dx, dy⟩ := by
  have h1 : m0 * sx + m1 * sy + m2 = dx * (m6 * sx + m7 * sy + 1) := by
    linear_combination e1
  have h2 : m3 * sx + m4 * sy + m5 = dy * (m6 * sx + m7 * sy + 1) := by
    linear_combination e2
  have hw : m6 * sx + m7 * sy + 1 ≠ 0 := by
    intro hw0
    apply hdet
    apply det3_eq_zero_of_kernel _ sx sy
    · show m0 * sx + m1 * sy + m2 = 0
      rw [h1, hw0, mul_zero]
    · show m3 * sx + m4 * sy + m5 = 0
      rw [h2, hw0, mul_zero]
    · exact hw0
  show (if m6 * sx + m7 * sy + 1 = 0 then none else
      some ({ x := (m0 * sx + m1 * sy + m2) / (m6 * sx + m7 * sy + 1),
              y := (m3 * sx + m4 * sy + m5) / (m6 * sx + m7 * sy + 1) } : Point2D))
    = some ⟨dx, dy⟩
  rw [if_neg hw, h1, h2, mul_div_assoc, div_self hw, mul_one, mul_div_assoc,
    div_self hw, mul_one]

set_option maxHeartbeats 3200000

/-- Claim C4: whenever the modelled perspective-transform computation produces
a matrix `M`, applying `M` maps the four source points, in order, exactly onto
the destination corners `(0,0)`, `(W,0)`, `(W,H)`, `(0,H)`; and on the already
axis-aligned source `(0,0), (400,0), (400,300), (0,300)` with destination
400×300 the computed transform is the identity matrix. -/
theorem perspectiveTransform_correct :
    (∀ (p0 p1 p2 p3 : Point2D) (W H : ℚ) (M : Mat3),
      getPerspectiveTransform p0 p1 p2 p3 W H = some M →
      applyHomography M p0 = some ⟨0, 0⟩ ∧ applyHomography M p1 = some ⟨W, 0⟩ ∧
      applyHomography M p2 = some ⟨W, H⟩ ∧ applyHomography M p3 = some ⟨0, H⟩) ∧
    getPerspectiveTransform ⟨0, 0⟩ ⟨400, 0⟩ ⟨400, 300⟩ ⟨0, 300⟩ 400 300 =
      some ![![1, 0, 0], ![0, 1, 0], ![0, 0, 1]] := by
  constructor
  · intro p0 p1 p2 p3 W H M hM
    rw [getPerspectiveTransform.eq_def] at hM
    cases hel : elimL 8 (homographyRows p0 p1 p2 p3 W H) with
    | none => rw [hel] at hM; cases hM
    | some xs =>
      rw [hel] at hM
      have hM2 : (match matFromList xs with
          | none => none
          | some M2 => if det3 M2 = 0 then none else some M2) = some M := hM
      cases hml : matFromList xs with
      | none => rw [hml] at hM2; cases hM2
      | some M2 =>
        rw [hml] at hM2
        have hM3 : (if det3 M2 = 0 then none else some M2) = some M := hM2
        by_cases hdet0 : det3 M2 = 0
        · rw [if_pos hdet0] at hM3; cases hM3
        · rw [if_neg hdet0] at hM3
          obtain ⟨m0, m1, m2, m3, m4, m5, m6, m7, hxs, hMdef⟩ :=
            matFromList_eq_some xs M2 hml
          subst hxs
          subst hMdef
          have hMeq : ![![m0, m1, m2], ![m3, m4, m5], ![m6, m7, 1]] = M :=
            Option.some.inj hM3
          subst hMeq
          have hsat := elimL_correct 8 _ _ (homographyRows_length p0 p1 p2 p3 W H) hel
          refine ⟨?_, ?_, ?_, ?_⟩
          · exact applyHomography_of_rows m0 m1 m2 m3 m4 m5 m6 m7 p0.x p0.y 0 0 hdet0
              (hsat (corrRow1 p0 ⟨0, 0⟩) (by simp [homographyRows]))
              (hsat (corrRow2 p0 ⟨0, 0⟩) (by simp [homographyRows]))
          · exact applyHomography_of_rows m0 m1 m2 m3 m4 m5 m6 m7 p1.x p1.y W 0 hdet0
              (hsat (corrRow1 p1 ⟨W, 0⟩) (by simp [homographyRows]))
              (hsat (corrRow2 p1 ⟨W, 0⟩) (by simp [homographyRows]))
          · exact applyHomography_of_rows m0 m1 m2 m3 m4 m5 m6 m7 p2.x p2.y W H hdet0
              (hsat (corrRow1 p2 ⟨W, H⟩) (by simp [homographyRows]))
              (hsat (corrRow2 p2 ⟨W, H⟩) (by simp [homographyRows]))
          · exact applyHomography_of_rows m0 m1 m2 m3 m4 m5 m6 m7 p3.x p3.y 0 H hdet0
              (hsat (corrRow1 p3 ⟨0, H⟩) (by simp [homographyRows]))
              (hsat (corrRow2 p3 ⟨0, H⟩) (by simp [homographyRows]))
  · norm_num [getPerspectiveTransform, homographyRows, corrRow1, corrRow2, elimL,
      findPivotL, reduceRowL, dotL, matFromList, det3]

/-- Witness for C4: applying the universally quantified part of the theorem at
the concrete identity instance established by its second conjunct shows the
identity transform fixes the corner (400, 300). -/
theorem perspectiveTransform_correct_witness :
    applyHomography ![![1, 0, 0], ![0, 1, 0], ![0, 0, 1]] ⟨400, 300⟩ = some ⟨400, 300⟩ :=
  (perspectiveTransform_correct.1 ⟨0, 0⟩ ⟨400, 0⟩ ⟨400, 300⟩ ⟨0, 300⟩ 400 300
    ![![1, 0, 0], ![0, 1, 0], ![0, 0, 1]] perspectiveTransform_correct.2).2.2.1
